import Mathlib

/-!
Verification development for the `dod-vs-abc` benchmark repository.

The repository compares a columnar ("DoD") layout, a repository-pattern
layout, and a layered repository + domain-service layout, all computing the
same filter-and-sum aggregation over a synthetic user dataset, plus two
minimal direct-indexing repositories with a balance-update operation.

Modelling conventions:
- `f32`/`f64` balances and thresholds are modelled as exact rationals `ℚ`.
  Every variant iterates in the same id order, so exact equality of the
  rational sums is the faithful statement of cross-variant agreement.
- The harness's derived statistics are modelled on a small IEEE-style `F64`
  carrier with `±∞`/`NaN`, because the distinction finite vs `Inf`/`NaN` is
  exactly what the error-handling claims are about.  Signed zero is
  collapsed to `0`.
- `i as i32` casts are modelled by `toI32`, the two's-complement wrap of a
  `usize` value into `i32`.
- Rust indexing that can panic is modelled with `Option` (`none` = panic);
  `Vec::get`/`get_mut` misses follow the source's explicit `if let` no-op.
- The `rand` crate is external to the repository; the generator is embedded
  parametrically over an abstract seeded PRNG state `S` with one uniform
  draw and one Bernoulli draw operation, threaded in the source's exact
  order (balance draw, then active draw, per record, in id order).
  Seeding from a `u64` has no entropy input, so a seed determines `S`.
- Wall-clock time is not modelled; the measured total time enters the
  statistics as a parameter.
-/

namespace DodVsAbc

/-- Two's-complement wrap of a `usize` value into `i32` (`i as i32`). -/
def toI32 (n : Nat) : Int :=
  if n % 4294967296 < 2147483648 then ((n % 4294967296 : Nat) : Int)
  else ((n % 4294967296 : Nat) : Int) - 4294967296

/-- A synthetic user record, shared logical content of all variants
(`struct User { id: i32, balance: f32, active: bool }`). -/
structure User where
  id : Int
  balance : ℚ
  active : Bool
deriving DecidableEq, Repr

/-- `fn qualifies(user: &User, minimum_balance: f32) -> bool`
(`1_repository-p`): `user.active && user.balance >= minimum_balance`. -/
def qualifies (user : User) (minimum_balance : ℚ) : Bool :=
  user.active && decide (minimum_balance ≤ user.balance)

namespace Dod

/-- The columnar view of `0_dod-p`:
`struct UsersView { ids, balances, active, count }`. -/
structure UsersView where
  ids : List Int
  balances : List ℚ
  active : List Nat
  count : Nat
deriving Repr

/-- One step of the columnar loop body per index, with `none` marking an
out-of-bounds slice access (a Rust panic).  The loop is
`for i in 0..count { let b = balances[i]; acc += b * take(active[i], b) }`. -/
def sumIndices (v : UsersView) (minimum_balance : ℚ) (acc : ℚ) :
    List Nat → Option ℚ
  | [] => some acc
  | i :: rest =>
    match v.balances[i]?, v.active[i]? with
    | some balance_value, some a =>
      let take_value : ℚ :=
        if a ≠ 0 ∧ minimum_balance ≤ balance_value then 1 else 0
      sumIndices v minimum_balance (acc + balance_value * take_value) rest
    | _, _ => none

/-- `fn sum_active_balances(users_view: &UsersView, minimum_balance: f32)`
of `0_dod-p`: accumulate `balance * (0 or 1)` over indices `0..count`. -/
def sum_active_balances (v : UsersView) (minimum_balance : ℚ) : Option ℚ :=
  sumIndices v minimum_balance 0 (List.range v.count)

end Dod

namespace Repo

/-- `VectorUserRepository::find_by_id`: first user whose `id` matches. -/
def find_by_id (users : List User) (id : Int) : Option User :=
  users.find? (fun user => user.id == id)

/-- The id-counting loop of `1_repository-p`'s `sum_active_balances`:
`for i in 0..count { if let Some(u) = find_by_id(i as i32) { if qualifies(u) { acc += u.balance } } }`. -/
def sumLoop (users : List User) (minimum_balance : ℚ) (acc : ℚ) :
    List Nat → ℚ
  | [] => acc
  | i :: rest =>
    match find_by_id users (toI32 i) with
    | some user =>
      sumLoop users minimum_balance
        (if qualifies user minimum_balance then acc + user.balance else acc)
        rest
    | none => sumLoop users minimum_balance acc rest

/-- `fn sum_active_balances(repository, minimum_balance)` of
`1_repository-p`; `repository.count()` is the vector length. -/
def sum_active_balances (users : List User) (minimum_balance : ℚ) : ℚ :=
  sumLoop users minimum_balance 0 (List.range users.length)

end Repo

namespace Service

/-- `UserService::qualifies_for_sum` of `3_repository-domain-p-optimized2`:
`user.active && user.balance >= minimum_balance`. -/
def qualifies_for_sum (user : User) (minimum_balance : ℚ) : Bool :=
  user.active && decide (minimum_balance ≤ user.balance)

/-- `UserService::sum_active_balances`:
`find_all().filter(qualifies_for_sum).map(balance).sum()`. -/
def sum_active_balances (users : List User) (minimum_balance : ℚ) : ℚ :=
  ((users.filter (fun user => qualifies_for_sum user minimum_balance)).map
    (fun user => user.balance)).sum

end Service

/-- Modelled from the spec's aggregation contract (§4.3): the sum of
`balance` over exactly those records where `active` is true and
`balance ≥ MinimumBalance`.  Used as the common reference the variants are
compared against. -/
def specAggregate (users : List User) (minimum_balance : ℚ) : ℚ :=
  ((users.filter (fun user => qualifies user minimum_balance)).map
    (fun user => user.balance)).sum

/-- An abstract seeded PRNG: the state type `S` is determined by the `u64`
seed (`StdRng::seed_from_u64` takes no entropy input), `sampleUniform` is
one `Uniform::new(0.0f32, 1000.0f32)` draw and `sampleBernoulli` one
`Bernoulli::new(0.6)` draw, each returning the advanced state. -/
structure Rng (S : Type) where
  sampleUniform : S → ℚ × S
  sampleBernoulli : S → Bool × S

/-- The generation loop of `1_repository-p`'s `main`, from loop index `i`
with `n` records still to produce: each record pushes `id: i as i32`, then
draws `balance`, then draws `active`, in that order. -/
def generateFrom {S : Type} (rng : Rng S) (i : Nat) : Nat → S → List User
  | 0, _ => []
  | n + 1, s =>
    { id := toI32 i
      balance := (rng.sampleUniform s).1
      active := (rng.sampleBernoulli (rng.sampleUniform s).2).1 } ::
      generateFrom rng (i + 1) n (rng.sampleBernoulli (rng.sampleUniform s).2).2

/-- `Generate(N, seed)` as performed by `1_repository-p`'s `main`: `N`
records from the seeded state `s`. -/
def generate {S : Type} (rng : Rng S) (n : Nat) (s : S) : List User :=
  generateFrom rng 0 n s

/-- The generation loop of `0_dod-p`'s `main`, producing the three columns
`user_ids`, `user_balances`, `user_active_flags` (`1u8`/`0u8`); the same
per-record draw order as the row generator. -/
def generateColumnsFrom {S : Type} (rng : Rng S) (i : Nat) :
    Nat → S → List Int × List ℚ × List Nat
  | 0, _ => ([], [], [])
  | n + 1, s =>
    let rest :=
      generateColumnsFrom rng (i + 1) n (rng.sampleBernoulli (rng.sampleUniform s).2).2
    (toI32 i :: rest.1,
     (rng.sampleUniform s).1 :: rest.2.1,
     (if (rng.sampleBernoulli (rng.sampleUniform s).2).1 then 1 else 0) :: rest.2.2)

/-- The columnar dataset of `0_dod-p`'s `main` for count `n` and seeded
state `s`. -/
def generateColumns {S : Type} (rng : Rng S) (n : Nat) (s : S) :
    List Int × List ℚ × List Nat :=
  generateColumnsFrom rng 0 n s

/-- The `UsersView` built in `0_dod-p`'s `main`: the three generated
columns with `count = ELEMENTS_COUNT`. -/
def mainView {S : Type} (rng : Rng S) (n : Nat) (s : S) : Dod.UsersView :=
  { ids := (generateColumns rng n s).1
    balances := (generateColumns rng n s).2.1
    active := (generateColumns rng n s).2.2
    count := n }

/-- The PRNG state after `k` whole records have been generated (each record
consumes one uniform draw then one Bernoulli draw). -/
def stateAfter {S : Type} (rng : Rng S) (s : S) : Nat → S
  | 0 => s
  | k + 1 => stateAfter rng ((rng.sampleBernoulli (rng.sampleUniform s).2).2) k

/-- A trivial PRNG over the unit state, used to instantiate parametric
statements at a concrete generator. -/
def unitRng : Rng Unit where
  sampleUniform := fun _ => (0, ())
  sampleBernoulli := fun _ => (false, ())

/-- IEEE-style `f64` carrier: a finite rational, an infinity, or `NaN`.
Signed zero is collapsed to `fin 0`. -/
inductive F64 where
  | fin : ℚ → F64
  | posInf : F64
  | negInf : F64
  | nan : F64
deriving DecidableEq, Repr

namespace F64

/-- `f64` division on the carrier: division by zero yields a signed
infinity (or `NaN` for `0/0`), a finite value divided by an infinity
yields zero, `∞/∞` yields `NaN`. -/
def div : F64 → F64 → F64
  | nan, _ => nan
  | _, nan => nan
  | fin a, fin b =>
    if b = 0 then
      if a = 0 then nan else if 0 < a then posInf else negInf
    else fin (a / b)
  | fin _, posInf => fin 0
  | fin _, negInf => fin 0
  | posInf, fin b => if 0 ≤ b then posInf else negInf
  | negInf, fin b => if 0 ≤ b then negInf else posInf
  | posInf, posInf => nan
  | posInf, negInf => nan
  | negInf, posInf => nan
  | negInf, negInf => nan

/-- `f64` multiplication on the carrier: `∞ * 0` yields `NaN`, otherwise
infinities keep sign rules. -/
def mul : F64 → F64 → F64
  | nan, _ => nan
  | _, nan => nan
  | fin a, fin b => fin (a * b)
  | fin a, posInf => if a = 0 then nan else if 0 < a then posInf else negInf
  | fin a, negInf => if a = 0 then nan else if 0 < a then negInf else posInf
  | posInf, fin b => if b = 0 then nan else if 0 < b then posInf else negInf
  | negInf, fin b => if b = 0 then nan else if 0 < b then negInf else posInf
  | posInf, posInf => posInf
  | posInf, negInf => negInf
  | negInf, posInf => negInf
  | negInf, negInf => posInf

end F64

/-- `const ELEMENTS_COUNT: usize = 10_000`. -/
def ELEMENTS_COUNT : Nat := 10000

/-- `const MINIMUM_BALANCE: f32 = 250.0`. -/
def MINIMUM_BALANCE : ℚ := 250

/-- `const RANDOM_SEED: u64 = 17`. -/
def RANDOM_SEED : Nat := 17

/-- `const WARMUP_ITERATIONS: usize = 2`. -/
def WARMUP_ITERATIONS : Nat := 2

/-- `const ITERATIONS: usize = 8`. -/
def ITERATIONS : Nat := 8

/-- `let average_time_seconds = total_time_seconds / ITERATIONS as f64`:
the harness divides unconditionally, with no validation of `iterations`.
The measured total time enters as a parameter (wall-clock time is not
modelled). -/
def average_time_seconds (total_time_seconds : F64) (iterations : Nat) : F64 :=
  F64.div total_time_seconds (F64.fin (iterations : ℚ))

/-- `let elements_per_second = ELEMENTS_COUNT as f64 / average_time_seconds`. -/
def elements_per_second (elements_count : Nat) (avg : F64) : F64 :=
  F64.div (F64.fin (elements_count : ℚ)) avg

/-- `let nanoseconds_per_element = (average_time_seconds * 1e9) / ELEMENTS_COUNT as f64`. -/
def nanoseconds_per_element (avg : F64) (elements_count : Nat) : F64 :=
  F64.div (F64.mul avg (F64.fin 1000000000)) (F64.fin (elements_count : ℚ))

/-- A user record of the minimal repositories:
`struct User { id: u32, balance: f64 }`. -/
structure MinUser where
  id : Nat
  balance : ℚ
deriving DecidableEq, Repr

namespace Op2

/-- `InMemoryUserRepository::update_balance` of `minimal/repository-p-op2`:
`if let Some(user) = self.users.get_mut(id as usize) { user.balance += delta; }`
— direct positional indexing; out of range is a silent no-op. -/
def update_balance (users : List MinUser) (id : Nat) (delta : ℚ) :
    List MinUser :=
  match users[id]? with
  | some user => users.set id { user with balance := user.balance + delta }
  | none => users

end Op2

namespace Op3

/-- The columnar repository state of `minimal/repository-p-op3`:
`struct InMemoryUserRepository { ids: Vec<u32>, balances: Vec<f64> }`. -/
structure InMemoryUserRepository where
  ids : List Nat
  balances : List ℚ
deriving DecidableEq, Repr

/-- `InMemoryUserRepository::new`: split the input users into the `ids`
and `balances` columns, in input order. -/
def InMemoryUserRepository.new (users : List MinUser) :
    InMemoryUserRepository where
  ids := users.map (fun user => user.id)
  balances := users.map (fun user => user.balance)

/-- `get_all`: zip the two columns back into owned `User` values. -/
def get_all (repo : InMemoryUserRepository) : List MinUser :=
  (repo.ids.zip repo.balances).map (fun p => { id := p.1, balance := p.2 })

/-- `update_balance` of `minimal/repository-p-op3`:
`if let Some(balance) = self.balances.get_mut(id as usize) { *balance += delta; }`. -/
def update_balance (repo : InMemoryUserRepository) (id : Nat) (delta : ℚ) :
    InMemoryUserRepository :=
  match repo.balances[id]? with
  | some b => { repo with balances := repo.balances.set id (b + delta) }
  | none => repo

end Op3

/-- The columnar view holding the same logical records as a row list:
ids, balances and `u8` active flags (`1`/`0`) column by column, with
`count` the number of records. -/
def viewOfRows (users : List User) : Dod.UsersView where
  ids := users.map (fun user => user.id)
  balances := users.map (fun user => user.balance)
  active := users.map (fun user => if user.active then 1 else 0)
  count := users.length

/-- What one record contributes to the aggregation: its balance if it
qualifies, else nothing. -/
def contribution (user : User) (minimum_balance : ℚ) : ℚ :=
  if qualifies user minimum_balance then user.balance else 0

/-- `contribution` lifted to a possibly-missing record. -/
def optContribution (o : Option User) (minimum_balance : ℚ) : ℚ :=
  match o with
  | some user => contribution user minimum_balance
  | none => 0

/-- What loop index `i` contributes in the columnar loop of `0_dod-p`
(0 when either slice access would be out of bounds). -/
def dodContribution (v : Dod.UsersView) (minimum_balance : ℚ) (i : Nat) : ℚ :=
  match v.balances[i]?, v.active[i]? with
  | some b, some a => b * (if a ≠ 0 ∧ minimum_balance ≤ b then 1 else 0)
  | _, _ => 0

/-- What loop index `i` contributes in the `find_by_id` loop of
`1_repository-p` (0 on a lookup miss). -/
def repoContribution (users : List User) (minimum_balance : ℚ) (i : Nat) : ℚ :=
  match Repo.find_by_id users (toI32 i) with
  | some user => contribution user minimum_balance
  | none => 0

/-- Dense zero-based ids: the id column is exactly `0, 1, ..., length-1`. -/
abbrev DenseIds (users : List User) : Prop :=
  users.map (fun user => user.id) =
    (List.range users.length).map (fun j : Nat => (j : Int))

/-! ### Helper lemmas -/

theorem toI32_eq_of_lt {n : Nat} (h : n < 2147483648) : toI32 n = (n : Int) := by
  have h2 : n % 4294967296 = n := Nat.mod_eq_of_lt (lt_trans h (by norm_num))
  simp only [toI32, h2]
  rw [if_pos h]

theorem sumIndices_eq (v : Dod.UsersView) (mb : ℚ) (l : List Nat) :
    ∀ acc : ℚ, (∀ i ∈ l, i < v.balances.length ∧ i < v.active.length) →
      Dod.sumIndices v mb acc l = some (acc + (l.map (dodContribution v mb)).sum) := by
  induction l with
  | nil => intro acc _; simp [Dod.sumIndices]
  | cons i rest ih =>
    intro acc h
    obtain ⟨hb, ha⟩ := h i (by simp)
    have hbe : v.balances[i]? = some v.balances[i] := List.getElem?_eq_getElem hb
    have hae : v.active[i]? = some v.active[i] := List.getElem?_eq_getElem ha
    rw [Dod.sumIndices, hbe, hae]
    show Dod.sumIndices v mb
        (acc + v.balances[i] * (if v.active[i] ≠ 0 ∧ mb ≤ v.balances[i] then 1 else 0))
        rest = _
    rw [ih _ (fun j hj => h j (by simp [hj]))]
    simp only [List.map_cons, List.sum_cons, dodContribution, hbe, hae]
    congr 1
    ring

theorem sumLoop_eq (users : List User) (mb : ℚ) (l : List Nat) :
    ∀ acc : ℚ,
      Repo.sumLoop users mb acc l = acc + (l.map (repoContribution users mb)).sum := by
  induction l with
  | nil => intro acc; simp [Repo.sumLoop]
  | cons i rest ih =>
    intro acc
    cases hfind : Repo.find_by_id users (toI32 i) with
    | none =>
      rw [Repo.sumLoop, hfind, ih]
      simp [repoContribution, hfind]
    | some u =>
      rw [Repo.sumLoop, hfind]
      show Repo.sumLoop users mb
          (if qualifies u mb = true then acc + u.balance else acc) rest = _
      by_cases hq : qualifies u mb
      · rw [if_pos hq, ih]
        simp only [List.map_cons, List.sum_cons, repoContribution, hfind,
          contribution, if_pos hq]
        ring
      · rw [if_neg hq, ih]
        simp only [List.map_cons, List.sum_cons, repoContribution, hfind,
          contribution, if_neg hq]
        ring

theorem denseIds_getElem {users : List User} (h : DenseIds users) :
    ∀ (j : Nat) (u : User), users[j]? = some u → u.id = (j : Int) := by
  intro j u hj
  have hlen : j < users.length := (List.getElem?_eq_some.mp hj).1
  have h1 : (users.map (fun user => user.id))[j]? = some u.id := by
    simp [List.getElem?_map, hj]
  rw [h] at h1
  have h2 : ((List.range users.length).map (fun j : Nat => (j : Int)))[j]?
      = some ((j : Nat) : Int) := by
    rw [List.getElem?_map, List.getElem?_range hlen]
    rfl
  rw [h2] at h1
  exact (Option.some.inj h1).symm

theorem find_by_id_dense (users : List User) :
    ∀ k : Nat,
      (∀ (j : Nat) (u : User), users[j]? = some u → u.id = (k : Int) + (j : Int)) →
      ∀ i : Nat, i < users.length →
        Repo.find_by_id users ((k : Int) + (i : Int)) = users[i]? := by
  induction users with
  | nil => intro k _ i hi; simp at hi
  | cons u rest ih =>
    intro k h i hi
    have hu : u.id = (k : Int) := by simpa using h 0 u (by simp)
    cases i with
    | zero =>
      rw [Repo.find_by_id, List.find?_cons_of_pos]
      · simp
      · simp [hu]
    | succ i =>
      have hrest : ∀ (j : Nat) (w : User), rest[j]? = some w →
          w.id = ((k + 1 : Nat) : Int) + (j : Int) := by
        intro j w hj
        have hh := h (j + 1) w (by simpa using hj)
        push_cast at hh ⊢
        omega
      have hcall := ih (k + 1) hrest i (by simpa using Nat.lt_of_succ_lt_succ hi)
      rw [Repo.find_by_id] at hcall ⊢
      rw [List.find?_cons_of_neg]
      · rw [show ((k : Int) + ((i + 1 : Nat) : Int)) = (((k + 1 : Nat) : Int) + i) by
          push_cast; ring]
        simpa using hcall
      · simp only [hu, beq_iff_eq]
        push_cast
        omega

theorem find_by_id_dense0 {users : List User} (hd : DenseIds users)
    (hlen : users.length ≤ 2147483648) :
    ∀ i, i < users.length → Repo.find_by_id users (toI32 i) = users[i]? := by
  intro i hi
  have hw : toI32 i = (i : Int) := toI32_eq_of_lt (lt_of_lt_of_le hi hlen)
  have hcall := find_by_id_dense users 0
    (by intro j u hj; simpa using denseIds_getElem hd j u hj) i hi
  simpa [hw] using hcall

theorem sum_range_optContribution (users : List User) (mb : ℚ) :
    ((List.range users.length).map (fun i => optContribution users[i]? mb)).sum
      = specAggregate users mb := by
  induction users with
  | nil => simp [specAggregate]
  | cons u rest ih =>
    rw [List.length_cons, List.range_succ_eq_map]
    simp only [List.map_cons, List.map_map, List.sum_cons]
    have hmap : (List.range rest.length).map
          ((fun i => optContribution (u :: rest)[i]? mb) ∘ Nat.succ)
        = (List.range rest.length).map (fun i => optContribution rest[i]? mb) := by
      apply List.map_congr_left
      intro j _
      simp [Function.comp, List.getElem?_cons_succ]
    rw [hmap, ih]
    simp only [List.getElem?_cons_zero, optContribution, specAggregate,
      List.filter_cons, contribution]
    by_cases hq : qualifies u mb <;> simp [hq]

theorem dodContribution_viewOfRows (users : List User) (mb : ℚ) (i : Nat) :
    dodContribution (viewOfRows users) mb i = optContribution users[i]? mb := by
  simp only [dodContribution, viewOfRows, List.getElem?_map]
  cases h : users[i]? with
  | none => simp [optContribution]
  | some u =>
    simp only [Option.map_some']
    simp only [optContribution, contribution, qualifies]
    by_cases ha : u.active <;> by_cases hb : mb ≤ u.balance <;>
      simp [ha, hb]

theorem repoContribution_dense {users : List User} (hd : DenseIds users)
    (hlen : users.length ≤ 2147483648) (mb : ℚ) :
    ∀ i, i < users.length →
      repoContribution users mb i = optContribution users[i]? mb := by
  intro i hi
  rw [repoContribution, find_by_id_dense0 hd hlen i hi]
  cases users[i]? <;> rfl

theorem dod_sum_eq_spec (users : List User) (mb : ℚ) :
    Dod.sum_active_balances (viewOfRows users) mb
      = some (specAggregate users mb) := by
  rw [Dod.sum_active_balances, sumIndices_eq]
  · rw [List.map_congr_left (fun i _ => dodContribution_viewOfRows users mb i)]
    rw [show (viewOfRows users).count = users.length from rfl,
      sum_range_optContribution]
    simp
  · intro i hi
    have hi2 : i < users.length := by
      simpa [viewOfRows] using List.mem_range.mp hi
    constructor <;> simpa [viewOfRows] using hi2

theorem repo_sum_eq_spec {users : List User} (hd : DenseIds users)
    (hlen : users.length ≤ 2147483648) (mb : ℚ) :
    Repo.sum_active_balances users mb = specAggregate users mb := by
  rw [Repo.sum_active_balances, sumLoop_eq]
  rw [List.map_congr_left
    (fun i hi => repoContribution_dense hd hlen mb i (List.mem_range.mp hi))]
  rw [sum_range_optContribution]
  simp

theorem service_eq_spec (users : List User) (mb : ℚ) :
    Service.sum_active_balances users mb = specAggregate users mb := rfl

theorem generateFrom_length {S : Type} (rng : Rng S) :
    ∀ (n i : Nat) (s : S), (generateFrom rng i n s).length = n := by
  intro n
  induction n with
  | zero => intro i s; rfl
  | succ n ih => intro i s; simp [generateFrom, ih]

theorem generateFrom_map_id {S : Type} (rng : Rng S) :
    ∀ (n i : Nat) (s : S),
      (generateFrom rng i n s).map (fun u => u.id) = (List.range' i n).map toI32 := by
  intro n
  induction n with
  | zero => intro i s; rfl
  | succ n ih =>
    intro i s
    rw [List.range'_succ]
    simp [generateFrom, ih]

theorem generateFrom_getElem {S : Type} (rng : Rng S) :
    ∀ (n k i : Nat) (s : S), k < n →
      (generateFrom rng i n s)[k]? =
        some { id := toI32 (i + k)
               balance := (rng.sampleUniform (stateAfter rng s k)).1
               active := (rng.sampleBernoulli
                 (rng.sampleUniform (stateAfter rng s k)).2).1 } := by
  intro n
  induction n with
  | zero => intro k i s hk; omega
  | succ n ih =>
    intro k i s hk
    cases k with
    | zero =>
      simp [generateFrom, stateAfter]
    | succ k =>
      rw [generateFrom, List.getElem?_cons_succ]
      rw [ih k (i + 1) _ (by omega)]
      rw [show i + 1 + k = i + (k + 1) by omega]
      rfl

theorem generateColumnsFrom_eq {S : Type} (rng : Rng S) :
    ∀ (n i : Nat) (s : S),
      generateColumnsFrom rng i n s =
        ((generateFrom rng i n s).map (fun u => u.id),
         (generateFrom rng i n s).map (fun u => u.balance),
         (generateFrom rng i n s).map (fun u => if u.active then 1 else 0)) := by
  intro n
  induction n with
  | zero => intro i s; rfl
  | succ n ih => intro i s; simp [generateColumnsFrom, generateFrom, ih]

theorem generateColumns_lengths {S : Type} (rng : Rng S) (n : Nat) (s : S) :
    (generateColumns rng n s).1.length = n ∧
    (generateColumns rng n s).2.1.length = n ∧
    (generateColumns rng n s).2.2.length = n := by
  rw [generateColumns, generateColumnsFrom_eq]
  simp [generateFrom_length]

/-! ### Claim theorems -/

/-- C1: for every dataset whose records carry identical (id, balance,
active) content across layouts, with ids dense and zero-based (ids are
`i32`, so such a dataset has at most `2^31` records), and for every
threshold, the columnar `sum_active_balances` over `UsersView`, the
repository `sum_active_balances` driving `find_by_id` in an id-counting
loop, and `UserService::sum_active_balances` all return equal sums.  All
three variants add balances in the same id order; in the exact rational
model the agreement is exact, well within the spec's relative
floating-point tolerance. -/
theorem aggregation_cross_variant_equal (users : List User) (mb : ℚ)
    (hd : DenseIds users) (hlen : users.length ≤ 2147483648) :
    Dod.sum_active_balances (viewOfRows users) mb
      = some (Service.sum_active_balances users mb) ∧
    Repo.sum_active_balances users mb = Service.sum_active_balances users mb := by
  refine ⟨?_, ?_⟩
  · rw [dod_sum_eq_spec, service_eq_spec]
  · rw [repo_sum_eq_spec hd hlen, service_eq_spec]

/-- Concrete instance of C1 on a three-record dataset at threshold 250. -/
theorem aggregation_cross_variant_equal_witness :
    Dod.sum_active_balances
        (viewOfRows [⟨0, 300, true⟩, ⟨1, 100, true⟩, ⟨2, 500, false⟩]) 250
      = some (Service.sum_active_balances
          [⟨0, 300, true⟩, ⟨1, 100, true⟩, ⟨2, 500, false⟩] 250) ∧
    Repo.sum_active_balances
        [⟨0, 300, true⟩, ⟨1, 100, true⟩, ⟨2, 500, false⟩] 250
      = Service.sum_active_balances
          [⟨0, 300, true⟩, ⟨1, 100, true⟩, ⟨2, 500, false⟩] 250 :=
  aggregation_cross_variant_equal
    [⟨0, 300, true⟩, ⟨1, 100, true⟩, ⟨2, 500, false⟩] 250
    (by decide) (by norm_num)

/-- C2: for every dataset and threshold the aggregation returns the sum of
`balance` over exactly the records with `active` true and
`balance ≥ MinimumBalance` (`specAggregate`), each record contributing
exactly once — the columnar multiply-by-0/1 accumulation unconditionally,
and the repository `find_by_id` loop over ids `0..count-1` under its dense
zero-based-ids premise. -/
theorem aggregation_filter_sum (users : List User) (mb : ℚ) :
    Dod.sum_active_balances (viewOfRows users) mb
      = some (specAggregate users mb) ∧
    (DenseIds users → users.length ≤ 2147483648 →
      Repo.sum_active_balances users mb = specAggregate users mb) :=
  ⟨dod_sum_eq_spec users mb, fun hd hlen => repo_sum_eq_spec hd hlen mb⟩

/-- Concrete instance of C2: the repository loop on a two-record dense
dataset matches the filtered sum at threshold 250. -/
theorem aggregation_filter_sum_witness :
    Repo.sum_active_balances [⟨0, 250, true⟩, ⟨1, 249, true⟩] 250
      = specAggregate [⟨0, 250, true⟩, ⟨1, 249, true⟩] 250 :=
  (aggregation_filter_sum [⟨0, 250, true⟩, ⟨1, 249, true⟩] 250).2
    (by decide) (by norm_num)

/-- C4: dataset generation is deterministic — re-running either `main`'s
generation procedure with the same count and the same seeded PRNG state
yields an identical dataset (same ids, balances, active flags, in the same
order); moreover the columnar (`0_dod-p`) and row (`1_repository-p`)
procedures produce the same logical content from the same seed. -/
theorem generation_deterministic {S : Type} (rng : Rng S) (n : Nat) (s : S) :
    generate rng n s = generate rng n s ∧
    generateColumns rng n s = generateColumns rng n s ∧
    generateColumns rng n s =
      ((generate rng n s).map (fun u => u.id),
       (generate rng n s).map (fun u => u.balance),
       (generate rng n s).map (fun u => if u.active then 1 else 0)) :=
  ⟨rfl, rfl, generateColumnsFrom_eq rng n 0 s⟩

/-- C5 (amended): whenever `ElementCount ≤ 2^31` the generator assigns
ids `0 .. N-1` sequentially (for larger counts the `i as i32` cast wraps),
and — for every count, unconditionally — record `k` consumes the seeded
source in the fixed order: one uniform balance draw from the state reached
after `k` records, then one Bernoulli active draw from the advanced state,
per record, in id order. -/
theorem generator_ids_and_draw_order {S : Type} (rng : Rng S) (n : Nat)
    (s : S) :
    (n ≤ 2147483648 →
      (generate rng n s).map (fun u => u.id)
        = (List.range n).map (fun j : Nat => (j : Int))) ∧
    ∀ k, k < n →
      (generate rng n s)[k]? =
        some { id := toI32 k
               balance := (rng.sampleUniform (stateAfter rng s k)).1
               active := (rng.sampleBernoulli
                 (rng.sampleUniform (stateAfter rng s k)).2).1 } := by
  constructor
  · intro hn
    rw [generate, generateFrom_map_id, List.range_eq_range']
    apply List.map_congr_left
    intro j hj
    obtain ⟨i0, hi0, hj0⟩ := List.mem_range'.mp hj
    exact toI32_eq_of_lt (by omega)
  · intro k hk
    simpa using generateFrom_getElem rng n k 0 s hk

/-- Concrete instance of the amended C5: three generated records carry ids
`0, 1, 2`. -/
theorem generator_ids_and_draw_order_witness :
    (generate unitRng 3 ()).map (fun u => u.id)
      = (List.range 3).map (fun j : Nat => (j : Int)) :=
  (generator_ids_and_draw_order unitRng 3 ()).1 (by norm_num)

/-- C5 counterexample: at `ElementCount = 2^31 + 1` the `i as i32` cast
wraps, so the id assigned at generation index `2^31` is `-2^31`, not
`2^31` — the id column is not the sequence `0 .. N-1`. -/
theorem generator_ids_wrap_counterexample :
    ¬ ((generate unitRng 2147483649 ()).map (fun u => u.id)
        = (List.range 2147483649).map (fun j : Nat => (j : Int))) := by
  intro h
  have h1 := generateFrom_getElem unitRng 2147483649 2147483648 0 ()
    (by norm_num)
  have h2 : ((generate unitRng 2147483649 ()).map (fun u => u.id))[2147483648]?
      = some (toI32 2147483648) := by
    rw [List.getElem?_map, generate, h1]
    simp
  have h3 : ((List.range 2147483649).map (fun j : Nat => (j : Int)))[2147483648]?
      = some ((2147483648 : Nat) : Int) := by
    rw [List.getElem?_map, List.getElem?_range (by norm_num)]
    rfl
  rw [h, h3] at h2
  have h4 : toI32 2147483648 = -2147483648 := by
    norm_num [toI32]
  rw [h4] at h2
  have h5 := Option.some.inj h2
  norm_num at h5

/-- C3 counterexample: at `Iterations = 0` the harness performs no
validation and silently derives non-finite statistics — `AverageTime`
is `+∞` (as is `NanosecondsPerElement`, while `ElementsPerSecond`
collapses to `0`) — instead of rejecting the input. -/
theorem harness_zero_iterations_counterexample :
    average_time_seconds (F64.fin 1) 0 = F64.posInf ∧
    elements_per_second ELEMENTS_COUNT (average_time_seconds (F64.fin 1) 0)
      = F64.fin 0 ∧
    nanoseconds_per_element (average_time_seconds (F64.fin 1) 0)
      ELEMENTS_COUNT = F64.posInf := by
  refine ⟨?_, ?_, ?_⟩ <;>
    norm_num [average_time_seconds, elements_per_second,
      nanoseconds_per_element, F64.div, F64.mul, ELEMENTS_COUNT]

/-- C3 (amended): the harness performs no `Iterations = 0` validation —
see the counterexample — but the program only ever invokes it with the
compile-time constant `ITERATIONS = 8`; for that constant and any positive
measured total time, every derived statistic is a finite value (no `NaN`
or `Inf`). -/
theorem harness_stats_finite_at_main_config (t : ℚ) (ht : 0 < t) :
    average_time_seconds (F64.fin t) ITERATIONS = F64.fin (t / 8) ∧
    elements_per_second ELEMENTS_COUNT
      (average_time_seconds (F64.fin t) ITERATIONS) = F64.fin (10000 / (t / 8)) ∧
    nanoseconds_per_element (average_time_seconds (F64.fin t) ITERATIONS)
      ELEMENTS_COUNT = F64.fin (t / 8 * 1000000000 / 10000) := by
  have h8 : ((ITERATIONS : Nat) : ℚ) = 8 := by norm_num [ITERATIONS]
  have havg : average_time_seconds (F64.fin t) ITERATIONS = F64.fin (t / 8) := by
    rw [average_time_seconds, h8]
    norm_num [F64.div]
  have hne : t / 8 ≠ 0 := div_ne_zero (ne_of_gt ht) (by norm_num)
  refine ⟨havg, ?_, ?_⟩
  · rw [havg]
    simp [elements_per_second, F64.div, ELEMENTS_COUNT, hne]
  · rw [havg]
    norm_num [nanoseconds_per_element, F64.mul, F64.div, ELEMENTS_COUNT]

/-- Concrete instance of the amended C3 at total time 2 s. -/
theorem harness_stats_finite_witness :
    average_time_seconds (F64.fin 2) ITERATIONS = F64.fin (2 / 8) ∧
    elements_per_second ELEMENTS_COUNT
      (average_time_seconds (F64.fin 2) ITERATIONS) = F64.fin (10000 / (2 / 8)) ∧
    nanoseconds_per_element (average_time_seconds (F64.fin 2) ITERATIONS)
      ELEMENTS_COUNT = F64.fin (2 / 8 * 1000000000 / 10000) :=
  harness_stats_finite_at_main_config 2 (by norm_num)

/-- C6: the threshold comparison is inclusive in every variant: an active
record whose balance equals `MinimumBalance` contributes its balance to
the aggregation sum, and an active record whose balance is strictly below
the threshold — in particular one representable `f32` unit below, as in
the witness — contributes nothing. -/
theorem threshold_inclusive (mb bLow : ℚ) (h : bLow < mb) :
    Dod.sum_active_balances (viewOfRows [⟨0, mb, true⟩]) mb = some mb ∧
    Dod.sum_active_balances (viewOfRows [⟨0, bLow, true⟩]) mb = some 0 ∧
    Repo.sum_active_balances [⟨0, mb, true⟩] mb = mb ∧
    Repo.sum_active_balances [⟨0, bLow, true⟩] mb = 0 ∧
    Service.sum_active_balances [⟨0, mb, true⟩] mb = mb ∧
    Service.sum_active_balances [⟨0, bLow, true⟩] mb = 0 := by
  have hq1 : qualifies ⟨0, mb, true⟩ mb = true := by simp [qualifies]
  have hq2 : qualifies ⟨0, bLow, true⟩ mb = false := by
    simp [qualifies, not_le.mpr h]
  have hs1 : specAggregate [⟨0, mb, true⟩] mb = mb := by
    simp [specAggregate, hq1]
  have hs2 : specAggregate [⟨0, bLow, true⟩] mb = 0 := by
    simp [specAggregate, hq2]
  have hd1 : DenseIds [⟨0, mb, true⟩] := by
    simp [DenseIds, List.range_succ]
  have hd2 : DenseIds [⟨0, bLow, true⟩] := by
    simp [DenseIds, List.range_succ]
  refine ⟨?_, ?_, ?_, ?_, ?_, ?_⟩
  · rw [dod_sum_eq_spec, hs1]
  · rw [dod_sum_eq_spec, hs2]
  · rw [repo_sum_eq_spec hd1 (by simp), hs1]
  · rw [repo_sum_eq_spec hd2 (by simp), hs2]
  · rw [service_eq_spec, hs1]
  · rw [service_eq_spec, hs2]

/-- Concrete instance of C6 at threshold `250.0`: the excluded balance
`16383999/65536 = 249.9999847412109375` is exactly one representable
`f32` unit below `250.0` (the spacing of `f32` at 250 is `2^-16`). -/
theorem threshold_inclusive_witness :
    Dod.sum_active_balances (viewOfRows [⟨0, 250, true⟩]) 250 = some 250 ∧
    Dod.sum_active_balances (viewOfRows [⟨0, 16383999/65536, true⟩]) 250
      = some 0 ∧
    Repo.sum_active_balances [⟨0, 250, true⟩] 250 = 250 ∧
    Repo.sum_active_balances [⟨0, 16383999/65536, true⟩] 250 = 0 ∧
    Service.sum_active_balances [⟨0, 250, true⟩] 250 = 250 ∧
    Service.sum_active_balances [⟨0, 16383999/65536, true⟩] 250 = 0 :=
  threshold_inclusive 250 (16383999/65536) (by norm_num)

/-- C7: in the repository aggregation a `find_by_id` miss is "no record":
the loop step for a missing id leaves the accumulator unchanged and the
loop continues normally, and over a repository with dense zero-based ids
every queried id `0..count-1` hits, so the miss branch is never taken. -/
theorem find_miss_contributes_nothing (users : List User) (mb acc : ℚ)
    (i : Nat) (rest : List Nat) :
    (Repo.find_by_id users (toI32 i) = none →
      Repo.sumLoop users mb acc (i :: rest)
        = Repo.sumLoop users mb acc rest) ∧
    (DenseIds users → users.length ≤ 2147483648 →
      ∀ j, j < users.length → (Repo.find_by_id users (toI32 j)).isSome = true) := by
  constructor
  · intro hmiss
    rw [Repo.sumLoop, hmiss]
  · intro hd hlen j hj
    rw [find_by_id_dense0 hd hlen j hj, List.getElem?_eq_getElem hj]
    rfl

/-- Concrete instances of C7: a miss (id not present) leaves the loop
state unchanged; on a dense one-record repository id 0 hits. -/
theorem find_miss_contributes_nothing_witness :
    Repo.sumLoop [⟨5, 1, true⟩] 1 0 (0 :: [])
        = Repo.sumLoop [⟨5, 1, true⟩] 1 0 [] ∧
    (Repo.find_by_id [⟨0, 1, true⟩] (toI32 0)).isSome = true :=
  ⟨(find_miss_contributes_nothing [⟨5, 1, true⟩] 1 0 0 []).1 (by decide),
   (find_miss_contributes_nothing [⟨0, 1, true⟩] 1 0 0 []).2 (by decide)
     (by simp) 0 (by simp)⟩

/-- C8: for every `UsersView` whose `count` is at most both column
lengths, the columnar `sum_active_balances` performs no out-of-bounds
indexing (its embedded panic branch `none` is unreachable), and the view
built in `0_dod-p`'s `main` satisfies this precondition: its `count` and
all generated columns equal `ELEMENTS_COUNT`. -/
theorem columnar_no_out_of_bounds {S : Type} (rng : Rng S) (s : S)
    (v : Dod.UsersView) (mb : ℚ)
    (h1 : v.count ≤ v.balances.length) (h2 : v.count ≤ v.active.length) :
    (Dod.sum_active_balances v mb).isSome = true ∧
    (mainView rng ELEMENTS_COUNT s).count = ELEMENTS_COUNT ∧
    (mainView rng ELEMENTS_COUNT s).balances.length = ELEMENTS_COUNT ∧
    (mainView rng ELEMENTS_COUNT s).active.length = ELEMENTS_COUNT := by
  refine ⟨?_, rfl, ?_, ?_⟩
  · rw [Dod.sum_active_balances, sumIndices_eq v mb (List.range v.count) 0 ?_]
    · rfl
    · intro i hi
      have hi2 := List.mem_range.mp hi
      exact ⟨lt_of_lt_of_le hi2 h1, lt_of_lt_of_le hi2 h2⟩
  · exact (generateColumns_lengths rng ELEMENTS_COUNT s).2.1
  · exact (generateColumns_lengths rng ELEMENTS_COUNT s).2.2

/-- Concrete instance of C8: a one-record view within bounds aggregates
without hitting the panic branch. -/
theorem columnar_no_out_of_bounds_witness :
    (Dod.sum_active_balances ⟨[0], [100], [1], 1⟩ 50).isSome = true :=
  (columnar_no_out_of_bounds unitRng () ⟨[0], [100], [1], 1⟩ 50
    (by simp) (by simp)).1

/-- C9: in the minimal columnar repository (`minimal/repository-p-op3`),
construction followed by retrieval is a round-trip:
`InMemoryUserRepository::new(users).get_all()` returns the input list —
same length, same (id, balance) pairs, same order. -/
theorem new_get_all_roundtrip (users : List MinUser) :
    Op3.get_all (Op3.InMemoryUserRepository.new users) = users := by
  induction users with
  | nil => rfl
  | cons u rest ih =>
    cases u with
    | mk uid ubal =>
      simpa [Op3.get_all, Op3.InMemoryUserRepository.new, List.zip_cons_cons]
        using ih

/-- C10: in both minimal direct-indexing repositories,
`update_balance(id, delta)` adds `delta` to the balance stored at position
`id`, keeps that record's id, leaves every other position unchanged, and
when `id` is at or beyond the number of stored records the whole state is
unchanged — a silent no-op, not an error. -/
theorem update_balance_frame (users : List MinUser)
    (repo : Op3.InMemoryUserRepository) (id : Nat) (delta : ℚ) :
    (∀ u : MinUser, users[id]? = some u →
      (Op2.update_balance users id delta)[id]?
        = some { id := u.id, balance := u.balance + delta }) ∧
    (∀ j : Nat, j ≠ id →
      (Op2.update_balance users id delta)[j]? = users[j]?) ∧
    (users.length ≤ id → Op2.update_balance users id delta = users) ∧
    (∀ b : ℚ, repo.balances[id]? = some b →
      (Op3.update_balance repo id delta).balances[id]? = some (b + delta)) ∧
    (Op3.update_balance repo id delta).ids = repo.ids ∧
    (∀ j : Nat, j ≠ id →
      (Op3.update_balance repo id delta).balances[j]? = repo.balances[j]?) ∧
    (repo.balances.length ≤ id → Op3.update_balance repo id delta = repo) := by
  refine ⟨?_, ?_, ?_, ?_, ?_, ?_, ?_⟩
  · intro u hu
    have hlt : id < users.length := (List.getElem?_eq_some.mp hu).1
    rw [Op2.update_balance, hu]
    exact List.getElem?_set_eq_of_lt _ hlt
  · intro j hj
    rw [Op2.update_balance]
    cases hu : users[id]? with
    | none => rfl
    | some u => exact List.getElem?_set_ne (Ne.symm hj)
  · intro hle
    rw [Op2.update_balance, List.getElem?_eq_none hle]
  · intro b hb
    have hlt : id < repo.balances.length := (List.getElem?_eq_some.mp hb).1
    rw [Op3.update_balance, hb]
    exact List.getElem?_set_eq_of_lt _ hlt
  · rw [Op3.update_balance]
    cases hb : repo.balances[id]? <;> rfl
  · intro j hj
    rw [Op3.update_balance]
    cases hb : repo.balances[id]? with
    | none => rfl
    | some b => exact List.getElem?_set_ne (Ne.symm hj)
  · intro hle
    rw [Op3.update_balance, List.getElem?_eq_none hle]

/-- Concrete instances of C10: an in-range update adds the delta at the
target position, and out-of-range updates leave both repositories
untouched. -/
theorem update_balance_frame_witness :
    (Op2.update_balance [⟨0, 100⟩, ⟨1, 100⟩] 0 1)[0]?
        = some { id := (0 : Nat), balance := (100 : ℚ) + 1 } ∧
    (Op2.update_balance [⟨0, 100⟩, ⟨1, 100⟩] 0 1)[1]?
        = ([⟨0, 100⟩, ⟨1, 100⟩] : List MinUser)[1]? ∧
    Op2.update_balance [⟨0, 100⟩] 5 1 = [⟨0, 100⟩] ∧
    (Op3.update_balance ⟨[0], [100]⟩ 0 1).balances[0]? = some ((100 : ℚ) + 1) ∧
    Op3.update_balance ⟨[0], [100]⟩ 7 1 = (⟨[0], [100]⟩ : Op3.InMemoryUserRepository) :=
  ⟨(update_balance_frame [⟨0, 100⟩, ⟨1, 100⟩] ⟨[0], [100]⟩ 0 1).1
      ⟨0, 100⟩ (by simp),
   (update_balance_frame [⟨0, 100⟩, ⟨1, 100⟩] ⟨[0], [100]⟩ 0 1).2.1
      1 (by simp),
   (update_balance_frame [⟨0, 100⟩] ⟨[0], [100]⟩ 5 1).2.2.1 (by simp),
   (update_balance_frame [⟨0, 100⟩] ⟨[0], [100]⟩ 0 1).2.2.2.1
      100 (by simp),
   (update_balance_frame [⟨0, 100⟩] ⟨[0], [100]⟩ 7 1).2.2.2.2.2.2 (by simp)⟩

end DodVsAbc
